import Mathlib

/-
Verification of the DynamoDB document-store driver (src/lib/aws.ts and the
driver module): a shallow embedding of the credential resolver, the outgoing
request builder, and the storage operations `add`, `get`, `getPartition`,
`update`, `delete`, together with theorems about the properties stated in
the design document.

Modelling conventions:
* JavaScript truthiness of an optional string (`undefined` and `""` are
  falsy) is `strTruthy`.
* Remote DynamoDB error discrimination (`isErrorType`, which matches the
  `__type` tag of the response body) is the inductive `RemoteError`; any
  error not matching one of the three recognised tags is `RemoteError.other`
  carrying the original HTTP status and body.
* The driver's thrown errors (`conflict()` with status 409, `notFound()`
  with status 404, and rethrown remote errors) are `DriverError`.
* Documents are represented by their serialized textual form: `add` stores
  `JSON.stringify(document)` and `get` applies `JSON.parse`, so for
  serializable documents the payload round-trips through its string form;
  the embedding works directly with that string.
* The remote store the requests act on is `Db`, an association list from
  table name to table contents.  The semantics of the individual wire
  operations (`Db.putItemIfAbsent`, `Db.getItemRemote`, `Db.updateItemCond`,
  `Db.deleteItemCond`, `Db.createTableRemote`) are translated from the exact
  request bodies the driver sends: the `ConditionExpression`s
  `attribute_not_exists(revision)` and `revision = :oldRevision`, the
  `UpdateExpression`
  `ADD seq :one SET revision = :newRevision, updated = :now, document = :document`,
  and the table-level `ResourceNotFoundException` / `ResourceInUseException`
  behaviour of DynamoDB.  Table creation is modelled as immediately
  effective (the converged state after the provisioning window); the fixed
  one-second waits of the source do not affect any modelled result.
* The source's unbounded recursive retries (`add` and `update` re-invoke
  themselves after a backoff) are given explicit fuel; `none` means the
  computation did not finish within the given number of attempts.  A fresh
  revision token and a fresh timestamp are generated per attempt, modelled
  by the supplies `revs` and `nows` indexed by the attempt counter.
-/

namespace DynamoDocs

/-- JavaScript truthiness of a possibly-absent string: `undefined` and the
empty string are falsy, every other string truthy. -/
def strTruthy : Option String → Bool
  | none => false
  | some s => !(s == "")

/-- A stored record's attributes, as written by `add`:
`partition`/`key` form the identity (kept as the map key), with `revision`,
`created`, `updated`, `seq` and `document` as the remaining attributes. -/
structure Item where
  revision : String
  created : String
  updated : String
  seq : Nat
  document : String
  deriving DecidableEq, Repr

/-- Contents of one table: association list from `(partition, key)` to the
stored attributes. -/
abbrev TableState := List ((String × String) × Item)

/-- The remote store: association list from table name to table contents.
A name absent from the list is a table that does not exist. -/
abbrev Db := List (String × TableState)

/-- Classification the driver's `isErrorType` performs on a remote error by
the `__type` tag of the response body.  Errors matching none of the three
recognised tags are `other`, carrying the original status and body. -/
inductive RemoteError where
  | resourceNotFound
  | resourceInUse
  | conditionalCheckFailed
  | other (status : Nat) (body : String)
  deriving DecidableEq, Repr

/-- Errors the driver surfaces to its caller: `conflict` is the source's
`conflict()` (message "Conflict", status 409), `notFound` is `notFound()`
(message "Not found", status 404), and `rethrown e` is a remote error
rethrown verbatim. -/
inductive DriverError where
  | conflict
  | notFound
  | rethrown (e : RemoteError)
  deriving DecidableEq, Repr

/-- HTTP-style status code attached to a driver error: 409 on `conflict`,
404 on `notFound`.  A rethrown remote error keeps its original transport
status (recorded only for `other`). -/
def DriverError.statusCode : DriverError → Option Nat
  | .conflict => some 409
  | .notFound => some 404
  | .rethrown (.other s _) => some s
  | .rethrown _ => none

/-- The driver's `Environment` record (the configuration object in the
caller's context).  `tablePre` and `tablePost` are the source's
TABLE_PREFIX and TABLE_POSTFIX fields. -/
structure Environment where
  AWS_REGION : Option String
  AWS_DEFAULT_REGION : Option String
  AWS_ACCESS_KEY_ID : Option String
  AWS_SECRET_ACCESS_KEY : Option String
  AWS_SESSION_TOKEN : Option String
  tablePre : Option String
  tablePost : Option String
  AWS_DYNAMODB_BILLING_METHOD : Option String
  AWS_DYNAMODB_RCU : Option String
  AWS_DYNAMODB_WCU : Option String
  deriving DecidableEq, Repr

/-- The caller's context: optional configuration and an optional abort
signal (modelled abstractly by a numeric identity).  The optional logger of
the source only emits debug text and is not modelled. -/
structure Context where
  env : Option Environment
  signal : Option Nat
  deriving DecidableEq, Repr

/-- The source's `#tableName`: prefix and postfix from the configuration
around the logical table name, empty when absent. -/
def Connection.tableName (ctx : Context) (table : String) : String :=
  ((ctx.env.bind Environment.tablePre).getD "") ++ table ++
    ((ctx.env.bind Environment.tablePost).getD "")

/-- Look a table up by name (`TableName` of a request). -/
def Db.findTable (db : Db) (t : String) : Option TableState :=
  (db.find? (fun e => e.1 == t)).map (fun e => e.2)

/-- Replace the contents of an existing table. -/
def Db.setTable (db : Db) (t : String) (ts : TableState) : Db :=
  db.map (fun e => if e.1 == t then (t, ts) else e)

/-- Point lookup within a table by `(partition, key)`. -/
def TableState.getItem (ts : TableState) (p k : String) : Option Item :=
  (ts.find? (fun e => e.1 == (p, k))).map (fun e => e.2)

/-- Replace the item stored under `(partition, key)`. -/
def TableState.replaceItem (ts : TableState) (p k : String) (item : Item) : TableState :=
  ts.map (fun e => if e.1 == (p, k) then ((p, k), item) else e)

/-- Remove the item stored under `(partition, key)`. -/
def TableState.removeItem (ts : TableState) (p k : String) : TableState :=
  ts.filter (fun e => !(e.1 == (p, k)))

/-- Remote semantics of the `PutItem` request `add` sends: conditional on
`attribute_not_exists(revision)`, so an existing identity fails the
condition; a missing table is `ResourceNotFoundException`. -/
def Db.putItemIfAbsent (db : Db) (t p k : String) (item : Item) : Except RemoteError Db :=
  match Db.findTable db t with
  | none => .error .resourceNotFound
  | some ts =>
    match TableState.getItem ts p k with
    | some _ => .error .conditionalCheckFailed
    | none => .ok (Db.setTable db t (((p, k), item) :: ts))

/-- Remote semantics of the `GetItem` request `get` sends: a missing table
is `ResourceNotFoundException`, otherwise the optional item. -/
def Db.getItemRemote (db : Db) (t p k : String) : Except RemoteError (Option Item) :=
  match Db.findTable db t with
  | none => .error .resourceNotFound
  | some ts => .ok (TableState.getItem ts p k)

/-- Remote semantics of the `UpdateItem` request `update` sends: conditional
on `revision = :oldRevision` (a missing item also fails the condition), and
on success `ADD seq :one SET revision = :newRevision, updated = :now,
document = :document` applied atomically. -/
def Db.updateItemCond (db : Db) (t p k oldRev newRev now doc : String) : Except RemoteError Db :=
  match Db.findTable db t with
  | none => .error .resourceNotFound
  | some ts =>
    match TableState.getItem ts p k with
    | none => .error .conditionalCheckFailed
    | some item =>
      if item.revision == oldRev then
        .ok (Db.setTable db t (TableState.replaceItem ts p k
          ⟨newRev, item.created, now, item.seq + 1, doc⟩))
      else .error .conditionalCheckFailed

/-- Remote semantics of the `DeleteItem` request `delete` sends: the
condition `revision = :oldRevision` is attached only when a
`currentRevision` argument was supplied (strict `!== undefined` in the
source, hence `Option`); an unconditional delete of an absent item
succeeds. -/
def Db.deleteItemCond (db : Db) (t p k : String) (cond : Option String) : Except RemoteError Db :=
  match Db.findTable db t with
  | none => .error .resourceNotFound
  | some ts =>
    match cond with
    | none => .ok (Db.setTable db t (TableState.removeItem ts p k))
    | some oldRev =>
      match TableState.getItem ts p k with
      | none => .error .conditionalCheckFailed
      | some item =>
        if item.revision == oldRev then
          .ok (Db.setTable db t (TableState.removeItem ts p k))
        else .error .conditionalCheckFailed

/-- Remote semantics of the `CreateTable` request: creating an existing
table is `ResourceInUseException`; otherwise the table appears (the model
is the converged state after provisioning).  The billing options of the
request configure capacity only and do not affect the modelled contents. -/
def Db.createTableRemote (db : Db) (t : String) : Except RemoteError Db :=
  match Db.findTable db t with
  | some _ => .error .resourceInUse
  | none => .ok (db ++ [(t, [])])

/-- The source's `#createTable`: issues `CreateTable` and swallows
`ResourceInUseException` from a concurrent creator; any other error
propagates. -/
def Connection.createTable (ctx : Context) (db : Db) (table : String) : Except DriverError Db :=
  match Db.createTableRemote db (Connection.tableName ctx table) with
  | .ok db' => .ok db'
  | .error .resourceInUse => .ok db
  | .error e => .error (.rethrown e)

/-- The source's `add`, with the retry recursion made explicit: one fuel
unit per attempt (`none` = the recursion did not finish in `fuel`
attempts), `revs`/`nows` the per-attempt supplies of fresh revision tokens
and timestamps.  The catch-order is the source's: table missing triggers
lazy creation, a one-second wait, and a retry of the whole operation;
table in use waits and retries; a failed conditional insert is a Conflict
with no retry; anything else is rethrown. -/
def Connection.add (ctx : Context) (revs nows : Nat → String) (table p k doc : String) :
    Nat → Nat → Db → Option (Except DriverError (Db × String))
  | 0, _, _ => none
  | fuel + 1, attempt, db =>
    match Db.putItemIfAbsent db (Connection.tableName ctx table) p k
        ⟨revs attempt, nows attempt, nows attempt, 0, doc⟩ with
    | .ok db' => some (.ok (db', revs attempt))
    | .error .resourceNotFound =>
      match Connection.createTable ctx db table with
      | .ok db₁ => Connection.add ctx revs nows table p k doc fuel (attempt + 1) db₁
      | .error e => some (.error e)
    | .error .resourceInUse => Connection.add ctx revs nows table p k doc fuel (attempt + 1) db
    | .error .conditionalCheckFailed => some (.error .conflict)
    | .error e => some (.error (.rethrown e))

/-- Result of a successful `get`: the identity, the stored revision and the
decoded document (kept in serialized form, see the header comment). -/
structure GetResult where
  partition : String
  key : String
  revision : String
  document : String
  deriving DecidableEq, Repr

/-- The error handling of `get` over the outcome of its `GetItem` call:
a response without an item, a missing table and a table still being
provisioned all become NotFound; any other error is rethrown. -/
def Connection.getDispatch (p k : String) (outcome : Except RemoteError (Option Item)) :
    Except DriverError GetResult :=
  match outcome with
  | .ok none => .error .notFound
  | .ok (some item) => .ok ⟨p, k, item.revision, item.document⟩
  | .error .resourceNotFound => .error .notFound
  | .error .resourceInUse => .error .notFound
  | .error e => .error (.rethrown e)

/-- The source's `get`: the `GetItem` call followed by its dispatch. -/
def Connection.get (ctx : Context) (db : Db) (table p k : String) : Except DriverError GetResult :=
  Connection.getDispatch p k (Db.getItemRemote db (Connection.tableName ctx table) p k)

/-- The source's `update`, retry recursion made explicit like `add`.
Catch-order of the source: failed condition is Conflict; table in use
waits and retries with a fresh token; table missing is Conflict; anything
else is rethrown. -/
def Connection.update (ctx : Context) (revs nows : Nat → String) (table p k oldRev doc : String) :
    Nat → Nat → Db → Option (Except DriverError (Db × String))
  | 0, _, _ => none
  | fuel + 1, attempt, db =>
    match Db.updateItemCond db (Connection.tableName ctx table) p k oldRev
        (revs attempt) (nows attempt) doc with
    | .ok db' => some (.ok (db', revs attempt))
    | .error .conditionalCheckFailed => some (.error .conflict)
    | .error .resourceInUse =>
      Connection.update ctx revs nows table p k oldRev doc fuel (attempt + 1) db
    | .error .resourceNotFound => some (.error .conflict)
    | .error e => some (.error (.rethrown e))

/-- The source's `delete`: the conditional `DeleteItem` call and its
catch-order: failed condition is Conflict; table in use is a silent
success; table missing is a Conflict when the supplied `currentRevision`
is truthy (note: the source tests `if (currentRevision)`, JS truthiness,
not the `!== undefined` test that decided whether the delete was
conditional) and a silent success otherwise; anything else is rethrown. -/
def Connection.delete (ctx : Context) (db : Db) (table p k : String)
    (currentRevision : Option String) : Except DriverError Db :=
  match Db.deleteItemCond db (Connection.tableName ctx table) p k currentRevision with
  | .ok db' => .ok db'
  | .error .conditionalCheckFailed => .error .conflict
  | .error .resourceInUse => .ok db
  | .error .resourceNotFound =>
    if strTruthy currentRevision then .error .conflict else .ok db
  | .error e => .error (.rethrown e)

/-- Lexicographic strict comparison on character lists, the order JS `<`
applies to strings.  (Computable stand-in for `List.lt`; the two agree,
see `charsLt_iff_lt`.) -/
def charsLt : List Char → List Char → Bool
  | _, [] => false
  | [], _ :: _ => true
  | a :: as, b :: bs => if a < b then true else if b < a then false else charsLt as bs

/-- JS `a < b` on strings. -/
def strLt (a b : String) : Bool := charsLt a.data b.data

/-- JS `a <= b` on strings (total order, so the negation of `b < a`). -/
def strLe (a b : String) : Bool := !(strLt b a)

/-- Prefix test on character lists. -/
def charsIsPre : List Char → List Char → Bool
  | [], _ => true
  | _ :: _, [] => false
  | a :: as, b :: bs => a == b && charsIsPre as bs

/-- JS `k.startsWith(s)`. -/
def strStartsWith (k s : String) : Bool := charsIsPre s.data k.data

/-- The `KeyRange` filter of the schema: either a key prefix, or lower and
upper bounds where each bound is an optional string ( `none` models an
absent property). -/
inductive KeyRange where
  | withPrefix (s : String)
  | bounds (after : Option String) (before : Option String)
  deriving DecidableEq, Repr

/-- The source's `matchRange`, the client-side re-check predicate: prefix
match for a prefix range; for bounds, JS truthiness selects the clause
(`after <= key && key < before`, `after <= key`, `key < before`), and a
bounds object whose members are all falsy accepts nothing. -/
def matchRange (range : KeyRange) (key : String) : Bool :=
  match range with
  | .withPrefix s => strStartsWith key s
  | .bounds after before =>
    if strTruthy after then
      if strTruthy before then
        strLe (after.getD "") key && strLt key (before.getD "")
      else strLe (after.getD "") key
    else if strTruthy before then strLt key (before.getD "")
    else false

/-- The remote key condition `queryFromRange` builds: the
`KeyConditionExpression` text plus the bound attribute values (the
`ExpressionAttributeNames` map is fixed in the source and omitted). -/
structure QuerySpec where
  keyConditionExpression : String
  valuePartition : String
  valueAfter : Option String
  valueBefore : Option String
  valuePre : Option String
  deriving DecidableEq, Repr

/-- The source's `queryFromRange`: no range selects the whole partition; a
prefix range uses `begins_with`; bounds use `between` when both are truthy,
a one-sided comparison when one is, and only the partition clause when
neither is.  A bounds object with neither property present throws
"Unsupported range.". -/
def queryFromRange (partition : String) (range : Option KeyRange) : Except String QuerySpec :=
  match range with
  | none => .ok ⟨ "#p = :p", partition, none, none, none⟩
  | some ( .withPrefix s) =>
    .ok ⟨ "#p = :p AND begins_with(#k, :withPrefix)", partition, none, none, some s⟩
  | some ( .bounds after before) =>
    if after.isSome || before.isSome then
      .ok ⟨String.intercalate " and " (["#p = :p"] ++
        (if strTruthy after then
          if strTruthy before then ["#k between :after and :before"]
          else [":after <= #k"]
        else if strTruthy before then ["#k < :before"]
        else [])), partition, after, before, none⟩
    else .error "Unsupported range."

/-- An item as it appears in a `Query` response page: every attribute may
be absent on the wire. -/
structure WireItem where
  partition : Option String
  key : Option String
  revision : Option String
  document : Option String
  deriving DecidableEq, Repr

/-- A record yielded by `getPartition`: absent wire attributes fall back to
the empty string for `partition` and to the serialized empty object for
`document`, exactly as in the source. -/
structure YieldedRec where
  partition : String
  key : String
  revision : Option String
  document : String
  deriving DecidableEq, Repr

/-- The per-item step of `getPartition`'s loop body: skip an item whose
key is absent or empty (JS `!key`), skip it when a range is supplied and
the client-side re-check `matchRange` rejects the key, otherwise yield the
decoded record. -/
def yieldItem (range : Option KeyRange) (item : WireItem) : Option YieldedRec :=
  match item.key with
  | none => none
  | some k =>
    if k == "" then none
    else if range.elim false (fun rg => !(matchRange rg k)) then none
    else some ⟨item.partition.getD "", k, item.revision, item.document.getD "\x7b\x7d"⟩

/-- One `Query` response as the scan loop consumes it: a page of items
together with whether a `LastEvaluatedKey` continuation was returned, or a
remote error raised by the call. -/
inductive QueryOutcome where
  | ok (items : List WireItem) (lastEvaluatedKey : Bool)
  | err (e : RemoteError)
  deriving DecidableEq, Repr

/-- The source's `getPartition` generator, run against a sequence of remote
`Query` outcomes (one per iteration of its pagination loop): the list of
yielded records, and the error the sequence ends with, if any.  A missing
or provisioning table ends the sequence silently; any other remote error
propagates; a page without a continuation ends the loop. -/
def getPartitionRun (range : Option KeyRange) :
    List QueryOutcome → List YieldedRec × Option RemoteError
  | [] => ([], none)
  | QueryOutcome.err RemoteError.resourceNotFound :: _ => ([], none)
  | QueryOutcome.err RemoteError.resourceInUse :: _ => ([], none)
  | QueryOutcome.err e :: _ => ([], some e)
  | QueryOutcome.ok items more :: rest =>
    let ys := items.filterMap (yieldItem range)
    if more then
      (ys ++ (getPartitionRun range rest).1, (getPartitionRun range rest).2)
    else (ys, none)

/-- The environment-variable view `localAwsEnv` reads. -/
structure ProcessEnv where
  AWS_REGION : Option String
  AWS_DEFAULT_REGION : Option String
  AWS_ACCESS_KEY_ID : Option String
  AWS_SECRET_ACCESS_KEY : Option String
  AWS_SESSION_TOKEN : Option String
  deriving DecidableEq, Repr

/-- The resolved credential set `localAwsEnv` returns. -/
structure LocalEnv where
  AWS_REGION : String
  AWS_ACCESS_KEY_ID : String
  AWS_SECRET_ACCESS_KEY : String
  AWS_SESSION_TOKEN : Option String
  deriving DecidableEq, Repr

/-- JS `String.prototype.split` with a one-character separator, on
character lists: `"".split(sep)` is `[""]`, and separators delimit
possibly-empty fields. -/
def splitOnChar (sep : Char) : List Char → List (List Char)
  | [] => [[]]
  | c :: rest =>
    if c == sep then [] :: splitOnChar sep rest
    else match splitOnChar sep rest with
      | [] => [[c]]
      | h :: t => (c :: h) :: t

/-- JS `String.prototype.trim`: strip leading and trailing whitespace. -/
def strTrim (s : String) : String :=
  String.mk (((s.data.dropWhile Char.isWhitespace).reverse.dropWhile Char.isWhitespace).reverse)

/-- JS `String.prototype.split('\n')` on a string. -/
def splitLines (content : String) : List String :=
  (splitOnChar (Char.ofNat 10) content.data).map fun cs => String.mk cs

/-- The credential-file preprocessing: split into lines, trim each, drop
blank lines and lines starting with `#`. -/
def parseConfigLines (content : String) : List String :=
  ((splitLines content).map strTrim).filter
    (fun l => !(l == "") && !(strStartsWith l "#"))

/-- The source's `localAwsEnv`: prefer the environment values when region,
access key id and secret key are all truthy (note: this fast path returns
only those three fields, leaving the session token out); otherwise parse
the credentials file, select the named section falling back to `[default]`,
read the four fields from it (`region` only when the environment did not
already provide one, nullish assignment), and fail when a mandatory field
is still missing.  The file content is a parameter; the process-wide line
cache of the source only memoises the read and does not change the
result. -/
def localAwsEnv (region profile : Option String) (penv : ProcessEnv) (fileContent : String) :
    Except String LocalEnv :=
  let awsRegion := (region.orElse fun _ => penv.AWS_REGION).orElse fun _ => penv.AWS_DEFAULT_REGION
  let keyId := penv.AWS_ACCESS_KEY_ID
  let secret := penv.AWS_SECRET_ACCESS_KEY
  if strTruthy awsRegion && strTruthy keyId && strTruthy secret then
    .ok ⟨awsRegion.getD "", keyId.getD "", secret.getD "", none⟩
  else
    let configLines := parseConfigLines fileContent
    let sectionHeader := "[" ++ profile.getD "default" ++ "]"
    match (configLines.findIdx? (fun l => l == sectionHeader)).orElse
        (fun _ => configLines.findIdx? (fun l => l == "[default]")) with
    | none => .error "Section not found."
    | some beginIx =>
      let upTo := match (configLines.enum.find?
          (fun e => decide (e.1 > beginIx) && strStartsWith e.2 "[")).map (fun e => e.1) with
        | none => configLines
        | some endIx => configLines.take endIx
      let sectionLines := (upTo.drop (beginIx + 1)).map (fun line =>
        ((((splitOnChar '=' line.data).map String.mk).get? 0).map strTrim,
          (((splitOnChar '=' line.data).map String.mk).get? 1).map strTrim))
      let awsRegion := awsRegion.orElse fun _ =>
        (sectionLines.find? (fun e => e.1 == some "region")).bind (fun e => e.2)
      let keyId := (sectionLines.find? (fun e => e.1 == some "aws_access_key_id")).bind
        (fun e => e.2)
      let secret := (sectionLines.find? (fun e => e.1 == some "aws_secret_access_key")).bind
        (fun e => e.2)
      let token := (sectionLines.find? (fun e => e.1 == some "aws_session_token")).bind
        (fun e => e.2)
      if !(strTruthy awsRegion) || !(strTruthy keyId) || !(strTruthy secret) then
        .error "Incomplete AWS credentials file."
      else .ok ⟨awsRegion.getD "", keyId.getD "", secret.getD "", token⟩

/-- The outgoing HTTP call `awsStringRequest` makes through `fetchJson`.
The Signature V4 header computation is outside the modelled scope; the
essential fact recorded is the fetch options object the source passes,
literally `{ method, headers, body }`, which carries no abort signal
(`signal := none`). -/
structure HttpCall where
  url : String
  method : String
  contentType : String
  target : String
  body : String
  signal : Option Nat
  deriving DecidableEq, Repr

/-- The source's `awsStringRequest`: builds the service URL, signs, and
issues the fetch with options `{ method, headers, body }`. -/
def awsStringRequest (env : LocalEnv) (method service path body contentType target : String) :
    HttpCall :=
  ⟨ "https://" ++ service ++ "." ++ env.AWS_REGION ++ ".amazonaws.com" ++ path,
    method, contentType, target, body, none⟩

/-- The source's `dbRequest`: resolves the mandatory credential fields from
the caller's environment (failing like `missing(...)` on the first absent
one, in source evaluation order) and issues the signed DynamoDB call.  The
caller's context is not consulted beyond its `env` member. -/
def dbRequest (env : Option Environment) (target : String) (body : String) :
    Except String HttpCall :=
  match env.bind Environment.AWS_REGION, env.bind Environment.AWS_ACCESS_KEY_ID,
      env.bind Environment.AWS_SECRET_ACCESS_KEY with
  | none, _, _ => .error "Missing AWS_REGION"
  | _, none, _ => .error "Missing AWS_ACCESS_KEY_ID"
  | _, _, none => .error "Missing AWS_SECRET_ACCESS_KEY"
  | some r, some i, some s =>
    .ok (awsStringRequest ⟨r, i, s, env.bind Environment.AWS_SESSION_TOKEN⟩
      "POST" "dynamodb" "/" body "application/json" ("DynamoDB_20120810." ++ target))

/-! ### Supporting lemmas -/

/-- The executable comparison `charsLt` is the lexicographic order. -/
theorem charsLt_iff_lt : ∀ as bs : List Char, charsLt as bs = true ↔ as < bs := by
  intro as
  induction as with
  | nil =>
    intro bs
    cases bs with
    | nil => exact iff_of_false (by simp [charsLt]) (List.Lex.not_nil_right _ _)
    | cons b bs => exact iff_of_true rfl List.Lex.nil
  | cons a as ih =>
    intro bs
    cases bs with
    | nil => exact iff_of_false (by simp [charsLt]) (List.Lex.not_nil_right _ _)
    | cons b bs =>
      show (if a < b then true else if b < a then false else charsLt as bs) = true ↔ _
      by_cases hab : a < b
      · rw [if_pos hab]
        exact iff_of_true rfl (List.Lex.rel hab)
      · by_cases hba : b < a
        · rw [if_neg hab, if_pos hba]
          refine iff_of_false (by simp) ?_
          intro h
          cases h with
          | rel h' => exact hab h'
          | cons h' => exact lt_irrefl _ hba
        · have heq : a = b := le_antisymm (le_of_not_lt hba) (le_of_not_lt hab)
          subst heq
          rw [if_neg hab, if_neg hba]
          constructor
          · intro h
            exact List.Lex.cons ((ih bs).mp h)
          · intro h
            cases h with
            | rel h' => exact absurd h' hab
            | cons h' => exact (ih bs).mpr h'

/-- `strLt` is the strict order on strings. -/
theorem strLt_iff_lt (a b : String) : strLt a b = true ↔ a < b := by
  rw [String.lt_iff_toList_lt]
  exact charsLt_iff_lt a.data b.data

/-- `strLe` is the order on strings. -/
theorem strLe_iff_le (a b : String) : strLe a b = true ↔ a ≤ b := by
  show (!(strLt b a)) = true ↔ a ≤ b
  rw [Bool.not_eq_true', ← Bool.not_eq_true]
  exact not_congr (strLt_iff_lt b a)

/-- The executable prefix test is `List.IsPrefix`. -/
theorem charsIsPre_iff : ∀ as bs : List Char, charsIsPre as bs = true ↔ as <+: bs := by
  intro as
  induction as with
  | nil => intro bs; simp [charsIsPre]
  | cons a as ih =>
    intro bs
    cases bs with
    | nil =>
      refine iff_of_false (by simp [charsIsPre]) ?_
      intro h
      simpa using h.length_le
    | cons b bs =>
      show ((a == b) && charsIsPre as bs) = true ↔ _
      rw [List.cons_prefix_cons, Bool.and_eq_true, beq_iff_eq, ih bs]

/-- `strStartsWith k s` holds exactly when `s`'s characters are a prefix of
`k`'s. -/
theorem strStartsWith_iff (k s : String) : strStartsWith k s = true ↔ s.data <+: k.data :=
  charsIsPre_iff s.data k.data

/-- Nothing is below the empty string. -/
theorem not_lt_empty (s : String) : ¬ s < "" := by
  rw [String.lt_iff_toList_lt]
  exact List.Lex.not_nil_right _ _

/-- The empty string is below everything. -/
theorem empty_le (s : String) : ("" : String) ≤ s :=
  not_lt_empty s

/-- A string at or below the empty string is empty. -/
theorem eq_empty_of_le_empty {s : String} (h : s ≤ "") : s = "" :=
  le_antisymm h (empty_le s)

/-- Overwriting an existing table is seen by a lookup of that table. -/
theorem Db.findTable_setTable (db : Db) (t : String) (ts₀ ts : TableState)
    (h : Db.findTable db t = some ts₀) :
    Db.findTable (Db.setTable db t ts) t = some ts := by
  induction db with
  | nil => simp [Db.findTable] at h
  | cons e rest ih =>
    cases he : (e.1 == t) with
    | true =>
      simp [Db.findTable, Db.setTable, List.find?, he]
    | false =>
      simp only [Db.findTable, List.find?, he] at h
      simp only [Db.setTable, List.map_cons, he, if_neg Bool.false_ne_true, Db.findTable,
        List.find?]
      exact ih h

/-- A freshly inserted item is found by a lookup of its identity. -/
theorem TableState.getItem_cons (ts : TableState) (p k : String) (item : Item) :
    TableState.getItem (((p, k), item) :: ts) p k = some item := by
  simp [TableState.getItem, List.find?]

/-- Replacing an existing item is seen by a lookup of its identity. -/
theorem TableState.getItem_replaceItem (ts : TableState) (p k : String) (it₀ it : Item)
    (h : TableState.getItem ts p k = some it₀) :
    TableState.getItem (TableState.replaceItem ts p k it) p k = some it := by
  induction ts with
  | nil => simp [TableState.getItem] at h
  | cons e rest ih =>
    cases he : (e.1 == (p, k)) with
    | true =>
      simp [TableState.getItem, TableState.replaceItem, List.find?, he]
    | false =>
      simp only [TableState.getItem, List.find?, he] at h
      simp only [TableState.replaceItem, List.map_cons, he, if_neg Bool.false_ne_true,
        TableState.getItem, List.find?]
      exact ih h

/-- A possibly-absent string that is JS-falsy defaults to the empty
string. -/
theorem getD_empty_of_not_truthy {a : Option String} (h : strTruthy a = false) :
    a.getD "" = "" := by
  cases a with
  | none => rfl
  | some s =>
    simp only [strTruthy, Bool.not_eq_false', beq_iff_eq] at h
    simpa using h

/-- `strTruthy` of an absent value. -/
theorem strTruthy_none : strTruthy none = false := rfl

/-- Unfolding of the re-check for a bounds range. -/
theorem matchRange_bounds (after before : Option String) (key : String) :
    matchRange ( KeyRange.bounds after before) key =
      (if strTruthy after then
        if strTruthy before then strLe (after.getD "") key && strLt key (before.getD "")
        else strLe (after.getD "") key
      else if strTruthy before then strLt key (before.getD "")
      else false) := rfl

/-- Inversion of the yield step: a yielded record's key passed the
client-side re-check. -/
theorem yieldItem_matchRange (rg : KeyRange) (w : WireItem) (r : YieldedRec)
    (h : yieldItem (some rg) w = some r) : matchRange rg r.key = true := by
  cases hk : w.key with
  | none =>
    simp only [yieldItem, hk] at h
    exact Option.noConfusion h
  | some k =>
    simp only [yieldItem, hk] at h
    by_cases hke : (k == "") = true
    · rw [if_pos hke] at h; cases h
    · rw [if_neg hke] at h
      by_cases hm : ((some rg).elim false (fun rg' => !(matchRange rg' k))) = true
      · rw [if_pos hm] at h; cases h
      · rw [if_neg hm] at h
        cases h
        simpa using hm

/-- Every record the scan yields passed the client-side re-check,
whatever pages the remote returned. -/
theorem mem_getPartitionRun (rg : KeyRange) (outs : List QueryOutcome) (r : YieldedRec)
    (h : r ∈ (getPartitionRun (some rg) outs).1) : matchRange rg r.key = true := by
  induction outs with
  | nil => simp [getPartitionRun] at h
  | cons o rest ih =>
    cases o with
    | err e => cases e <;> simp [getPartitionRun] at h
    | ok items more =>
      cases more with
      | true =>
        simp only [getPartitionRun, if_true] at h
        rw [List.mem_append] at h
        cases h with
        | inl hl =>
          obtain ⟨w, _, hy⟩ := List.mem_filterMap.mp hl
          exact yieldItem_matchRange rg w r hy
        | inr hr => exact ih hr
      | false =>
        simp only [getPartitionRun, if_false] at h
        obtain ⟨w, _, hy⟩ := List.mem_filterMap.mp h
        exact yieldItem_matchRange rg w r hy

/-- After a successful conditional insert, a point lookup of the same
identity returns the inserted attributes. -/
theorem Connection.get_after_put (ctx : Context) (db db' : Db) (table p k : String)
    (item : Item)
    (h : Db.putItemIfAbsent db (Connection.tableName ctx table) p k item = .ok db') :
    Connection.get ctx db' table p k = .ok ⟨p, k, item.revision, item.document⟩ ∧
    ((Db.findTable db' (Connection.tableName ctx table)).bind
      (fun ts => (TableState.getItem ts p k).map Item.seq)) = some item.seq := by
  cases hft : Db.findTable db (Connection.tableName ctx table) with
  | none =>
    simp only [Db.putItemIfAbsent, hft] at h
    exact Except.noConfusion h
  | some ts =>
    cases hgi : TableState.getItem ts p k with
    | some it =>
      simp only [Db.putItemIfAbsent, hft, hgi] at h
      exact Except.noConfusion h
    | none =>
      simp only [Db.putItemIfAbsent, hft, hgi] at h
      cases h
      have hft' := Db.findTable_setTable db (Connection.tableName ctx table) ts
        (((p, k), item) :: ts) hft
      constructor
      · simp [Connection.get, Db.getItemRemote, hft', TableState.getItem_cons,
          Connection.getDispatch]
      · simp [hft', TableState.getItem_cons]

/-! ### Claims -/

/-- C1: whenever `add` succeeds — including runs that go through lazy table
creation and retries — a subsequent `get` of the same identity returns a
record whose `document` is the one passed to `add` and whose `revision` is
the one `add` returned, and the stored record's `seq` attribute is `0`. -/
theorem add_get_roundtrip (ctx : Context) (revs nows : Nat → String)
    (table p k doc : String) (fuel attempt : Nat) (db db' : Db) (rev : String)
    (h : Connection.add ctx revs nows table p k doc fuel attempt db =
      some (.ok (db', rev))) :
    Connection.get ctx db' table p k = .ok ⟨p, k, rev, doc⟩ ∧
    ((Db.findTable db' (Connection.tableName ctx table)).bind
      (fun ts => (TableState.getItem ts p k).map Item.seq)) = some 0 := by
  induction fuel generalizing attempt db with
  | zero => simp [Connection.add] at h
  | succ n ih =>
    simp only [Connection.add] at h
    cases hp : Db.putItemIfAbsent db (Connection.tableName ctx table) p k
        ⟨revs attempt, nows attempt, nows attempt, 0, doc⟩ with
    | ok db₁ =>
      rw [hp] at h
      simp only [Option.some.injEq, Except.ok.injEq, Prod.mk.injEq] at h
      obtain ⟨rfl, rfl⟩ := h
      exact Connection.get_after_put ctx db db₁ table p k _ hp
    | error e =>
      rw [hp] at h
      cases e with
      | resourceNotFound =>
        cases hc : Connection.createTable ctx db table with
        | ok db₁ =>
          rw [hc] at h
          exact ih (attempt + 1) db₁ h
        | error e' =>
          rw [hc] at h
          simp at h
      | resourceInUse => exact ih (attempt + 1) db h
      | conditionalCheckFailed => simp at h
      | other s b => simp at h

/-- C1 (witness): a run of `add` on an empty store (creating the table
lazily, retrying once) followed by `get`. -/
theorem add_get_roundtrip_witness :
    Connection.get ⟨none, none⟩ [("t", [(("p", "k"), ⟨"rb", "nb", "nb", 0, "d"⟩)])]
      "t" "p" "k" = .ok ⟨"p", "k", "rb", "d"⟩ ∧
    ((Db.findTable [("t", [(("p", "k"), ⟨"rb", "nb", "nb", 0, "d"⟩)])]
      (Connection.tableName ⟨none, none⟩ "t")).bind
      (fun ts => (TableState.getItem ts "p" "k").map Item.seq)) = some 0 :=
  add_get_roundtrip ⟨none, none⟩ (fun n => if n == 0 then "ra" else "rb")
    (fun n => if n == 0 then "na" else "nb") "t" "p" "k" "d" 2 0 []
    [("t", [(("p", "k"), ⟨"rb", "nb", "nb", 0, "d"⟩)])] "rb" rfl

/-- C2: `update` against an existing record with the matching current
revision succeeds at its first attempt, replaces the document, increments
`seq` by exactly 1, stores the freshly generated revision token and
returns it, and a subsequent `get` reports that same token; when the fresh
token differs from the stored one (the UUID-freshness assumption,
hypothesis `hfresh`), the record's revision has changed. -/
theorem update_increments_seq (ctx : Context) (revs nows : Nat → String)
    (table p k oldRev doc : String) (fuel attempt : Nat) (db : Db)
    (ts : TableState) (item : Item)
    (hts : Db.findTable db (Connection.tableName ctx table) = some ts)
    (hit : TableState.getItem ts p k = some item)
    (hrev : item.revision = oldRev)
    (hfresh : revs attempt ≠ item.revision) :
    Connection.update ctx revs nows table p k oldRev doc (fuel + 1) attempt db =
      some (.ok (Db.setTable db (Connection.tableName ctx table)
        (TableState.replaceItem ts p k
          ⟨revs attempt, item.created, nows attempt, item.seq + 1, doc⟩),
        revs attempt)) ∧
    Connection.get ctx (Db.setTable db (Connection.tableName ctx table)
        (TableState.replaceItem ts p k
          ⟨revs attempt, item.created, nows attempt, item.seq + 1, doc⟩))
        table p k = .ok ⟨p, k, revs attempt, doc⟩ ∧
    TableState.getItem (TableState.replaceItem ts p k
        ⟨revs attempt, item.created, nows attempt, item.seq + 1, doc⟩) p k =
      some ⟨revs attempt, item.created, nows attempt, item.seq + 1, doc⟩ ∧
    revs attempt ≠ oldRev := by
  have hup : Db.updateItemCond db (Connection.tableName ctx table) p k oldRev
      (revs attempt) (nows attempt) doc =
      .ok (Db.setTable db (Connection.tableName ctx table)
        (TableState.replaceItem ts p k
          ⟨revs attempt, item.created, nows attempt, item.seq + 1, doc⟩)) := by
    simp only [Db.updateItemCond, hts, hit, hrev]
    simp
  have hgi' := TableState.getItem_replaceItem ts p k item
    ⟨revs attempt, item.created, nows attempt, item.seq + 1, doc⟩ hit
  have hft' := Db.findTable_setTable db (Connection.tableName ctx table) ts
    (TableState.replaceItem ts p k
      ⟨revs attempt, item.created, nows attempt, item.seq + 1, doc⟩) hts
  refine ⟨?_, ?_, hgi', ?_⟩
  · simp only [Connection.update]
    rw [hup]
  · simp [Connection.get, Db.getItemRemote, hft', hgi', Connection.getDispatch]
  · rw [hrev] at hfresh
    exact hfresh

/-- C2 (witness): a concrete update of a stored record with `seq = 5`. -/
theorem update_increments_seq_witness :
    Connection.update ⟨none, none⟩ (fun _ => "r1") (fun _ => "u1") "t" "p" "k" "r0" "d1"
      1 0 [("t", [(("p", "k"), ⟨"r0", "c0", "u0", 5, "d0"⟩)])] =
      some (.ok (Db.setTable [("t", [(("p", "k"), ⟨"r0", "c0", "u0", 5, "d0"⟩)])]
        (Connection.tableName ⟨none, none⟩ "t")
        (TableState.replaceItem [(("p", "k"), ⟨"r0", "c0", "u0", 5, "d0"⟩)] "p" "k"
          ⟨"r1", "c0", "u1", 5 + 1, "d1"⟩), "r1")) ∧
    Connection.get ⟨none, none⟩ (Db.setTable [("t", [(("p", "k"), ⟨"r0", "c0", "u0", 5, "d0"⟩)])]
        (Connection.tableName ⟨none, none⟩ "t")
        (TableState.replaceItem [(("p", "k"), ⟨"r0", "c0", "u0", 5, "d0"⟩)] "p" "k"
          ⟨"r1", "c0", "u1", 5 + 1, "d1"⟩)) "t" "p" "k" = .ok ⟨"p", "k", "r1", "d1"⟩ ∧
    TableState.getItem (TableState.replaceItem [(("p", "k"), ⟨"r0", "c0", "u0", 5, "d0"⟩)]
        "p" "k" ⟨"r1", "c0", "u1", 5 + 1, "d1"⟩) "p" "k" =
      some ⟨"r1", "c0", "u1", 5 + 1, "d1"⟩ ∧
    ("r1" : String) ≠ "r0" :=
  update_increments_seq ⟨none, none⟩ (fun _ => "r1") (fun _ => "u1") "t" "p" "k" "r0" "d1"
    0 0 [("t", [(("p", "k"), ⟨"r0", "c0", "u0", 5, "d0"⟩)])]
    [(("p", "k"), ⟨"r0", "c0", "u0", 5, "d0"⟩)] ⟨"r0", "c0", "u0", 5, "d0"⟩
    rfl rfl rfl (by decide)

/-- C3: a second `add` of an identity that already exists in the table
fails with a Conflict error carrying status 409, and does so within a
single attempt whatever retry budget remains — the failed conditional
insert is never retried. -/
theorem duplicate_add_conflict (ctx : Context) (revs nows : Nat → String)
    (table p k doc : String) (fuel attempt : Nat) (db : Db) (ts : TableState) (item : Item)
    (hts : Db.findTable db (Connection.tableName ctx table) = some ts)
    (hit : TableState.getItem ts p k = some item) :
    Connection.add ctx revs nows table p k doc (fuel + 1) attempt db =
      some (.error .conflict) ∧
    DriverError.statusCode .conflict = some 409 := by
  have hp : Db.putItemIfAbsent db (Connection.tableName ctx table) p k
      ⟨revs attempt, nows attempt, nows attempt, 0, doc⟩ =
      .error .conditionalCheckFailed := by
    simp only [Db.putItemIfAbsent, hts, hit]
  constructor
  · simp only [Connection.add]
    rw [hp]
  · rfl

/-- C3 (witness): a duplicate `add` against a concrete store. -/
theorem duplicate_add_conflict_witness :
    Connection.add ⟨none, none⟩ (fun _ => "r") (fun _ => "n") "t" "p" "k" "d" (41 + 1) 0
      [("t", [(("p", "k"), ⟨"r0", "c", "u", 0, "d0"⟩)])] = some (.error .conflict) ∧
    DriverError.statusCode .conflict = some 409 :=
  duplicate_add_conflict ⟨none, none⟩ (fun _ => "r") (fun _ => "n") "t" "p" "k" "d" 41 0
    [("t", [(("p", "k"), ⟨"r0", "c", "u", 0, "d0"⟩)])]
    [(("p", "k"), ⟨"r0", "c", "u", 0, "d0"⟩)] ⟨"r0", "c", "u", 0, "d0"⟩ rfl rfl

/-- C4 (counterexample): with range `{after: "a", before: ""}` — an
instance of the claim's `{after, before}` shape, `before` being the empty
string — the scan yields the key `"b"` from a remote page even though
`"b" < ""` is false, so not every yielded key satisfies
`after <= k < before`.  The source's `matchRange` tests JS truthiness
(`if (before)`), so an empty-string `before` silently degrades the check
to `after <= k`. -/
theorem getPartition_empty_before_cex :
    (⟨"p", "b", none, "\x7b\x7d"⟩ : YieldedRec) ∈
      (getPartitionRun (some ( KeyRange.bounds (some "a") (some "")))
        [QueryOutcome.ok [⟨some "p", some "b", none, none⟩] false]).1 ∧
    ¬ (("b" : String) < "") :=
  ⟨by decide, not_lt_empty "b"⟩

/-- C4 (amended): every record yielded by the scan satisfies the exact
range predicate — `key.startsWith(s)` for a prefix range, `k < before` for
an upper bound alone, and `after <= k < before` for two bounds provided
`before` is not the empty string (for an empty-string `before`, which is
JS-falsy, the code checks only `after <= k`) — regardless of which items
the remote query returned. -/
theorem getPartition_range_recheck (range : KeyRange) (outs : List QueryOutcome)
    (r : YieldedRec) (h : r ∈ (getPartitionRun (some range) outs).1) :
    (∀ s, range = KeyRange.withPrefix s → s.data <+: r.key.data) ∧
    (∀ a b, range = KeyRange.bounds a (some b) → b ≠ "" →
      a.getD "" ≤ r.key ∧ r.key < b) ∧
    (∀ b, range = KeyRange.bounds none (some b) → r.key < b) := by
  have hm := mem_getPartitionRun range outs r h
  refine ⟨?_, ?_, ?_⟩
  · intro s hs
    subst hs
    exact (strStartsWith_iff _ _).mp hm
  · intro a b hab hbne
    subst hab
    have htb : strTruthy (some b) = true := by simp [strTruthy, hbne]
    rw [matchRange_bounds, htb] at hm
    by_cases hta : strTruthy a = true
    · rw [hta] at hm
      simp at hm
      exact ⟨(strLe_iff_le _ _).mp hm.1, (strLt_iff_lt _ _).mp hm.2⟩
    · rw [Bool.not_eq_true] at hta
      rw [hta] at hm
      simp at hm
      refine ⟨?_, (strLt_iff_lt _ _).mp hm⟩
      rw [getD_empty_of_not_truthy hta]
      exact empty_le r.key
  · intro b hb
    subst hb
    by_cases hb0 : b = ""
    · subst hb0
      rw [matchRange_bounds, strTruthy_none] at hm
      simp [strTruthy] at hm
    · have htb : strTruthy (some b) = true := by simp [strTruthy, hb0]
      rw [matchRange_bounds, strTruthy_none, htb] at hm
      simp at hm
      exact (strLt_iff_lt _ _).mp hm

/-- C4 (witness): a prefix scan yielding one concrete record. -/
theorem getPartition_range_recheck_witness :
    (∀ s, KeyRange.withPrefix "a" = KeyRange.withPrefix s →
      s.data <+: ("ab" : String).data) ∧
    (∀ a b, KeyRange.withPrefix "a" = KeyRange.bounds a (some b) → b ≠ "" →
      a.getD "" ≤ "ab" ∧ ("ab" : String) < b) ∧
    (∀ b, KeyRange.withPrefix "a" = KeyRange.bounds none (some b) → ("ab" : String) < b) :=
  getPartition_range_recheck ( KeyRange.withPrefix "a")
    [QueryOutcome.ok [⟨some "p", some "ab", some "r", some "doc"⟩] false]
    ⟨"p", "ab", some "r", "doc"⟩ (by decide)

/-- C5 (counterexample): for `a = ""` and `k = ""` the claim demands the
re-check accept `k` (since `"" <= ""`), but the source's `matchRange`
treats the JS-falsy empty `after` as absent and, with no other bound,
returns a predicate that accepts nothing. -/
theorem matchRange_after_empty_cex :
    matchRange ( KeyRange.bounds (some "") none) "" = false ∧ ("" : String) ≤ "" :=
  ⟨by decide, le_refl ""⟩

/-- C5 (amended): for every non-empty (JS-truthy) `after` string `a`, the
client-side re-check for range `{after: a}` accepts a key `k` exactly when
`a <= k`, and every wire item the remote returns whose key is such a `k`
is yielded by the scan step. -/
theorem after_only_recheck (a k : String) (ha : a ≠ "") :
    (matchRange ( KeyRange.bounds (some a) none) k = true ↔ a ≤ k) ∧
    (∀ w : WireItem, w.key = some k → a ≤ k →
      yieldItem (some ( KeyRange.bounds (some a) none)) w =
        some ⟨w.partition.getD "", k, w.revision, w.document.getD "\x7b\x7d"⟩) := by
  have hta : strTruthy (some a) = true := by simp [strTruthy, ha]
  have hmr : ∀ key, matchRange ( KeyRange.bounds (some a) none) key = strLe a key := by
    intro key
    rw [matchRange_bounds, hta, strTruthy_none]
    simp
  constructor
  · rw [hmr k]
    exact strLe_iff_le a k
  · intro w hw hak
    have hk : k ≠ "" := by
      intro h0
      subst h0
      exact ha (eq_empty_of_le_empty hak)
    have hke : (k == "") = false := by simpa using hk
    unfold yieldItem
    rw [hw]
    simp [hke, hmr k, (strLe_iff_le a k).mpr hak]

/-- C5 (witness): the amended statement at `a = "a"`, `k = "ab"`. -/
theorem after_only_recheck_witness :
    (matchRange ( KeyRange.bounds (some "a") none) "ab" = true ↔ ("a" : String) ≤ "ab") ∧
    (∀ w : WireItem, w.key = some "ab" → ("a" : String) ≤ "ab" →
      yieldItem (some ( KeyRange.bounds (some "a") none)) w =
        some ⟨w.partition.getD "", "ab", w.revision, w.document.getD "\x7b\x7d"⟩) :=
  after_only_recheck "a" "ab" (by decide)

/-- C6: `get` reports NotFound (status 404) in exactly three situations —
the table does not exist, the table is being provisioned, or the lookup
succeeds without an item — and rethrows every other remote error
unchanged. -/
theorem get_notFound_classification (p k : String)
    (outcome : Except RemoteError (Option Item)) :
    (Connection.getDispatch p k outcome = .error .notFound ↔
      outcome = .error .resourceNotFound ∨ outcome = .error .resourceInUse ∨
        outcome = .ok none) ∧
    (∀ e : RemoteError, e ≠ .resourceNotFound → e ≠ .resourceInUse →
      Connection.getDispatch p k (.error e) = .error (.rethrown e)) ∧
    DriverError.statusCode .notFound = some 404 := by
  refine ⟨?_, ?_, rfl⟩
  · cases outcome with
    | ok it => cases it <;> simp [Connection.getDispatch]
    | error e => cases e <;> simp [Connection.getDispatch]
  · intro e h1 h2
    cases e <;> simp_all [Connection.getDispatch]

/-- C6 (witness): an unrecognised remote error is rethrown unchanged. -/
theorem get_notFound_classification_witness :
    Connection.getDispatch "p" "k" (.error (RemoteError.other 500 "boom")) =
      .error (.rethrown (RemoteError.other 500 "boom")) :=
  (get_notFound_classification "p" "k" (.error (RemoteError.other 500 "boom"))).2.1
    (RemoteError.other 500 "boom") (by decide) (by decide)

/-- C7: a `ResourceNotFoundException` or `ResourceInUseException` from the
remote query ends the scan silently with no further records and no error,
while any other remote error propagates out of the sequence; a page with a
continuation contributes its records and defers to the rest of the scan. -/
theorem getPartition_missing_table_ends_empty (range : Option KeyRange)
    (rest : List QueryOutcome) :
    getPartitionRun range (QueryOutcome.err RemoteError.resourceNotFound :: rest) =
      ([], none) ∧
    getPartitionRun range (QueryOutcome.err RemoteError.resourceInUse :: rest) =
      ([], none) ∧
    (∀ s b, getPartitionRun range (QueryOutcome.err (RemoteError.other s b) :: rest) =
      ([], some (RemoteError.other s b))) ∧
    getPartitionRun range (QueryOutcome.err RemoteError.conditionalCheckFailed :: rest) =
      ([], some RemoteError.conditionalCheckFailed) ∧
    (∀ items, getPartitionRun range (QueryOutcome.ok items true :: rest) =
      (items.filterMap (yieldItem range) ++ (getPartitionRun range rest).1,
        (getPartitionRun range rest).2)) :=
  ⟨rfl, rfl, fun _ _ => rfl, rfl, fun _ => rfl⟩

/-- C8 (counterexample): `delete` with the supplied conditional revision
`""` against a missing table returns silently instead of failing with
Conflict — the claim's "if a currentRevision argument was supplied"
branch does not hold for the supplied empty string, because the source's
catch tests JS truthiness (`if (currentRevision)`) rather than the
`!== undefined` test that made the delete conditional. -/
theorem delete_empty_revision_cex :
    Connection.delete ⟨none, none⟩ [] "t" "p" "k" (some "") = .ok [] ∧
    ¬ Connection.delete ⟨none, none⟩ [] "t" "p" "k" (some "") =
      .error DriverError.conflict :=
  ⟨rfl, fun h => Except.noConfusion h⟩

/-- C8 (amended): when the remote reports table-not-found during `delete`,
a supplied non-empty (JS-truthy) `currentRevision` makes the call fail
with a Conflict error (status 409), and an absent `currentRevision`
(unconditional delete) makes it return success silently; a supplied empty
string behaves like the unconditional case. -/
theorem delete_missing_table_dispatch (ctx : Context) (db : Db) (table p k rev : String)
    (hft : Db.findTable db (Connection.tableName ctx table) = none)
    (hrev : rev ≠ "") :
    Connection.delete ctx db table p k (some rev) = .error .conflict ∧
    Connection.delete ctx db table p k none = .ok db ∧
    Connection.delete ctx db table p k (some "") = .ok db ∧
    DriverError.statusCode .conflict = some 409 := by
  have hd : ∀ c, Db.deleteItemCond db (Connection.tableName ctx table) p k c =
      .error .resourceNotFound := by
    intro c
    simp only [Db.deleteItemCond, hft]
  refine ⟨?_, ?_, ?_, rfl⟩
  · unfold Connection.delete
    rw [hd]
    simp [strTruthy, hrev]
  · unfold Connection.delete
    rw [hd]
    rfl
  · unfold Connection.delete
    rw [hd]
    rfl

/-- C8 (witness): the amended statement on an empty store. -/
theorem delete_missing_table_dispatch_witness :
    Connection.delete ⟨none, none⟩ [] "t" "p" "k" (some "r") = .error .conflict ∧
    Connection.delete ⟨none, none⟩ [] "t" "p" "k" none = .ok [] ∧
    Connection.delete ⟨none, none⟩ [] "t" "p" "k" (some "") = .ok [] ∧
    DriverError.statusCode .conflict = some 409 :=
  delete_missing_table_dispatch ⟨none, none⟩ [] "t" "p" "k" "r" rfl (by decide)

/-- C9: when the environment supplies all three mandatory credential
fields together with a session token, `localAwsEnv` returns the three
mandatory values but drops the session token (`none` instead of the
supplied value), whatever the credentials file contains — the fast-path
return of the source lists only `AWS_REGION`, `AWS_ACCESS_KEY_ID` and
`AWS_SECRET_ACCESS_KEY`, contradicting the documented behaviour of
preferring all four environment overrides. -/
theorem localAwsEnv_fast_path_drops_token :
    ∀ fileContent : String,
      localAwsEnv none none ⟨some "r", none, some "id", some "sec", some "tok"⟩
        fileContent = .ok ⟨"r", "id", "sec", none⟩ :=
  fun _ => rfl

/-- C10: every remote call the driver issues is built by `dbRequest` from
the context's environment alone; the fetch options carry no abort signal
(`signal = none`), so a signal supplied in the caller's context is never
passed along with the outgoing HTTP request. -/
theorem dbRequest_no_abort_signal (env : Option Environment) (target body : String)
    (call : HttpCall) (h : dbRequest env target body = .ok call) :
    call.signal = none := by
  cases hr : env.bind Environment.AWS_REGION with
  | none =>
    simp only [dbRequest, hr] at h
    exact Except.noConfusion h
  | some r =>
    cases hi : env.bind Environment.AWS_ACCESS_KEY_ID with
    | none =>
      simp only [dbRequest, hr, hi] at h
      exact Except.noConfusion h
    | some i =>
      cases hs : env.bind Environment.AWS_SECRET_ACCESS_KEY with
      | none =>
        simp only [dbRequest, hr, hi, hs] at h
        exact Except.noConfusion h
      | some s =>
        simp only [dbRequest, hr, hi, hs] at h
        cases h
        rfl

/-- C10 (witness): the call built for a concrete environment has no
signal. -/
theorem dbRequest_no_abort_signal_witness :
    (⟨ "https://dynamodb.r.amazonaws.com/", "POST", "application/json",
      "DynamoDB_20120810.GetItem", "b", none⟩ : HttpCall).signal = none :=
  dbRequest_no_abort_signal
    (some ⟨some "r", none, some "id", some "sec", some "tok", none, none, none, none, none⟩)
    "GetItem" "b" _ rfl

end DynamoDocs
